import Mathlib

/-!
Verification of the PDFound document-converter backend against its design
specification.  The definitions below are shallow embeddings of the
JavaScript source: pure fragments become Lean functions, filesystem and
subprocess effects become explicit state (lists of created paths,
environment records describing tool outcomes), and thrown exceptions
become Except / inductive outcome values.  Pages of a PDF are abstracted
to an arbitrary type, since the page contents are delegated to pdf-lib;
what the orchestration code manipulates is the page sequence.
-/

namespace DocConv

/-! ### Page model: pdf-lib access and copyPages -/

/-- Model of a JavaScript array access on the page array of a
loaded document: a negative or too-large index yields undefined,
modelled as none. -/
def jsIndex {α : Type} (doc : List α) (i : Int) : Option α :=
  if i < 0 then none else doc.get? i.toNat

/-- Model of the loop inside pdf-lib PDFDocument.copyPages: pages are
copied one at a time in index order; the first index whose page lookup
is undefined makes the copier throw (dereferencing undefined), carrying
how many pages had already been copied when the exception occurred.
The accumulator holds the pages copied so far, in reverse. -/
def copyPagesAux {α : Type} (doc : List α) : List Int → List α → Except Nat (List α)
  | [], acc => .ok acc.reverse
  | i :: rest, acc =>
    match jsIndex doc i with
    | none => .error acc.length
    | some page => copyPagesAux doc rest (page :: acc)

/-- Model of pdf-lib PDFDocument.copyPages over a list of 0-based indices. -/
def copyPages {α : Type} (doc : List α) (indices : List Int) : Except Nat (List α) :=
  copyPagesAux doc indices []

/-! ### POST /pdf/reorder handler (routes/pdf.js) -/

/-- Outcome of the reorder request: a 400 validation rejection (missing or
empty pageOrder array), a thrown exception mapped to a 500 response by the
error middleware (carrying how many pages pdf-lib had copied before the
throw), or a success whose saved output document holds the copied pages. -/
inductive ReorderOutcome (α : Type) where
  | validationError
  | internalError (copiedBefore : Nat)
  | success (pages : List α)
  deriving DecidableEq

/-- Model of the POST /pdf/reorder handler: reject an empty page-order
array with a 400 validation error; otherwise convert the 1-based entries
to 0-based indices and let pdf-lib copy the pages in exactly that order;
the output file is written only after a fully successful copy. -/
def reorderHandler {α : Type} (doc : List α) (pageOrder : List Int) : ReorderOutcome α :=
  if pageOrder = [] then .validationError
  else
    match copyPages doc (pageOrder.map (fun p => p - 1)) with
    | .error k => .internalError k
    | .ok pages => .success pages

/-- True exactly when the reorder request wrote an output artifact:
the handler writes the reordered file only on the success path. -/
def reorderOutputWritten {α : Type} (doc : List α) (pageOrder : List Int) : Bool :=
  match reorderHandler doc pageOrder with
  | .success _ => true
  | _ => false

/-! Helper lemmas about copyPages -/

theorem get?_isSome_iff {α : Type} (l : List α) (n : Nat) :
    (l.get? n).isSome ↔ n < l.length := by
  constructor
  · intro h
    by_contra hlt
    push_neg at hlt
    rw [List.get?_len_le hlt] at h
    simp at h
  · intro h
    rw [List.get?_eq_get h]
    simp

theorem jsIndex_isSome_iff {α : Type} (doc : List α) (p : Int) :
    (jsIndex doc (p - 1)).isSome ↔ 1 ≤ p ∧ p ≤ doc.length := by
  unfold jsIndex
  constructor
  · intro h
    split at h
    · simp at h
    · rename_i hneg
      push_neg at hneg
      rw [get?_isSome_iff] at h
      omega
  · intro ⟨h1, h2⟩
    have hnn : ¬ (p - 1 < 0) := by omega
    simp only [hnn, if_false]
    rw [get?_isSome_iff]
    omega

theorem copyPagesAux_ok {α : Type} [Inhabited α] (doc : List α) (idxs : List Int) (acc : List α)
    (h : ∀ i ∈ idxs, (jsIndex doc i).isSome) :
    copyPagesAux doc idxs acc = .ok (acc.reverse ++ idxs.map (fun i => (jsIndex doc i).iget)) := by
  induction idxs generalizing acc with
  | nil => simp [copyPagesAux]
  | cons i rest ih =>
    have hi : (jsIndex doc i).isSome := h i (by simp)
    obtain ⟨page, hpage⟩ := Option.isSome_iff_exists.mp hi
    have hrest : ∀ j ∈ rest, (jsIndex doc j).isSome := by
      intro j hj
      exact h j (by simp [hj])
    simp only [copyPagesAux, hpage]
    rw [ih (page :: acc) hrest]
    simp [hpage, Option.iget]

theorem copyPagesAux_error {α : Type} (doc : List α) (idxs : List Int) (acc : List α)
    (h : ∃ i ∈ idxs, ¬ (jsIndex doc i).isSome) :
    copyPagesAux doc idxs acc =
      .error (acc.length + (idxs.takeWhile (fun i => (jsIndex doc i).isSome)).length) := by
  induction idxs generalizing acc with
  | nil => simp at h
  | cons i rest ih =>
    by_cases hi : (jsIndex doc i).isSome
    · obtain ⟨page, hpage⟩ := Option.isSome_iff_exists.mp hi
      have hrest : ∃ j ∈ rest, ¬ (jsIndex doc j).isSome := by
        obtain ⟨j, hj, hjn⟩ := h
        rcases List.mem_cons.mp hj with hj0 | hj1
        · exact absurd (hj0 ▸ hi) hjn
        · exact ⟨j, hj1, hjn⟩
      simp only [copyPagesAux, hpage]
      rw [ih (page :: acc) hrest]
      simp only [List.takeWhile]
      rw [hi]
      simp only [List.length_cons]
      congr 1
      omega
    · have hpage : jsIndex doc i = none := Option.not_isSome_iff_eq_none.mp hi
      simp only [copyPagesAux, hpage]
      simp only [List.takeWhile]
      rw [Bool.of_not_eq_true hi]
      simp

theorem reorderHandler_eq_of_invalid {α : Type} (doc : List α) (order : List Int)
    (h : ∃ p ∈ order, p ≤ 0 ∨ (doc.length : Int) < p) :
    reorderHandler doc order =
      .internalError
        ((order.map (fun p => p - 1)).takeWhile (fun i => (jsIndex doc i).isSome)).length := by
  have hne : order ≠ [] := by
    rintro rfl
    simp at h
  have hbad : ∃ i ∈ order.map (fun p => p - 1), ¬ (jsIndex doc i).isSome := by
    obtain ⟨p, hp, hcase⟩ := h
    refine ⟨p - 1, List.mem_map.mpr ⟨p, hp, rfl⟩, ?_⟩
    rw [jsIndex_isSome_iff]
    omega
  unfold reorderHandler
  rw [if_neg hne]
  unfold copyPages
  rw [copyPagesAux_error doc _ [] hbad]
  simp

/-- Claim C3, as stated, is FALSE on the code.  The reorder handler of
routes/pdf.js performs no validation of the pageOrder entries: an
out-of-range entry makes pdf-lib copyPages throw only when it is reached,
after the earlier (valid) entries have already been copied, and the thrown
error surfaces as a 500 internal error, not as a pre-copy validation
rejection.  Concretely, pageOrder [1, 5] on a 3-page document fails with
an internal error after 1 page was already copied; the outcome is not the
validation-error outcome the claim requires (though indeed no output
artifact is written). -/
theorem c3_reorder_invalid_counterexample :
    reorderHandler ([10, 20, 30] : List Nat) [1, 5] = .internalError 1 ∧
    (ReorderOutcome.internalError 1 : ReorderOutcome Nat) ≠ .validationError ∧
    reorderOutputWritten ([10, 20, 30] : List Nat) [1, 5] = false := by
  decide

/-- Claim C3 (amended): for every reorder request whose page-order sequence
contains an entry less than or equal to 0 or greater than the page count,
the request fails — but with an error thrown during page copying at the
first invalid entry (reported as a 500 internal error, with the preceding
valid entries already copied in memory), not with a validation error raised
before any copy; no output artifact is produced. -/
theorem c3_reorder_invalid_amended {α : Type} (doc : List α) (order : List Int)
    (h : ∃ p ∈ order, p ≤ 0 ∨ (doc.length : Int) < p) :
    reorderHandler doc order =
      .internalError
        ((order.map (fun p => p - 1)).takeWhile (fun i => (jsIndex doc i).isSome)).length ∧
    reorderOutputWritten doc order = false := by
  have heq := reorderHandler_eq_of_invalid doc order h
  refine ⟨heq, ?_⟩
  unfold reorderOutputWritten
  rw [heq]

/-- Witness for c3_reorder_invalid_amended at pageOrder [1, 5] on a 3-page
document: the handler throws at the second entry, one page copied before. -/
theorem c3_reorder_invalid_amended_witness :
    reorderHandler ([10, 20, 30] : List Nat) [1, 5] =
      .internalError
        ((([1, 5] : List Int).map (fun p => p - 1)).takeWhile
          (fun i => (jsIndex ([10, 20, 30] : List Nat) i).isSome)).length ∧
    reorderOutputWritten ([10, 20, 30] : List Nat) [1, 5] = false :=
  c3_reorder_invalid_amended ([10, 20, 30] : List Nat) [1, 5] (by decide)

/-- Claim C6: for every reorder request whose (nonempty) page-order
sequence contains only valid 1-based indices — duplicates and omissions
allowed — the handler succeeds, the output document is exactly the
sequence of source pages selected by the order (so output page k is a
copy of source page order[k]), and its page count equals the length of
the order sequence.  (An empty sequence is rejected earlier by the
separate required-parameter validation.) -/
theorem c6_reorder_valid_copies {α : Type} [Inhabited α] (doc : List α) (order : List Int)
    (hne : order ≠ [])
    (hvalid : ∀ p ∈ order, 1 ≤ p ∧ p ≤ doc.length) :
    reorderHandler doc order =
      .success (order.map (fun p => (jsIndex doc (p - 1)).iget)) ∧
    (order.map (fun p => (jsIndex doc (p - 1)).iget)).length = order.length := by
  have h : ∀ i ∈ order.map (fun p => p - 1), (jsIndex doc i).isSome := by
    intro i hi
    obtain ⟨p, hp, rfl⟩ := List.mem_map.mp hi
    exact (jsIndex_isSome_iff doc p).mpr (hvalid p hp)
  constructor
  · unfold reorderHandler
    rw [if_neg hne]
    unfold copyPages
    rw [copyPagesAux_ok doc _ [] h]
    simp [List.map_map]
  · simp

/-- Witness for c6_reorder_valid_copies: reorder [3, 1, 2] on the 3-page
document [10, 20, 30] yields exactly [30, 10, 20]. -/
theorem c6_reorder_valid_copies_witness :
    (reorderHandler ([10, 20, 30] : List Nat) [3, 1, 2] =
        .success (([3, 1, 2] : List Int).map
          (fun p => (jsIndex ([10, 20, 30] : List Nat) (p - 1)).iget)) ∧
      (([3, 1, 2] : List Int).map
        (fun p => (jsIndex ([10, 20, 30] : List Nat) (p - 1)).iget)).length = 3) ∧
    reorderHandler ([10, 20, 30] : List Nat) [3, 1, 2] = .success [30, 10, 20] :=
  ⟨c6_reorder_valid_copies ([10, 20, 30] : List Nat) [3, 1, 2] (by decide) (by decide),
    by decide⟩

/-! ### Merge and split (server.js /merge handler and utils/pdfOperations.js) -/

/-- Model of pdf-lib PDFDocument.save() with default options: the
addDefaultPage option defaults to true, so a document that has zero pages
gains one default blank page when saved. -/
def savePdf {α : Type} (pages : List α) (defaultPage : α) : List α :=
  if pages.isEmpty then [defaultPage] else pages

/-- Response of the merge endpoint: a success carrying the saved page
sequence of the merged artifact, or an error response. -/
inductive MergeResponse (α : Type) where
  | success (pages : List α)
  | error (msg : String)
  deriving DecidableEq

/-- Model of the for-loop of the POST /merge handler in server.js.  Input
files are given as loaded page lists, with none standing for a file whose
PDFDocument.load throws (corrupt document).  The per-file try/catch logs
the failure and continues with the remaining files. -/
def serverMergeLoop {α : Type} : List (Option (List α)) → List α
  | [] => []
  | some pages :: rest => pages ++ serverMergeLoop rest
  | none :: rest => serverMergeLoop rest

/-- Model of the POST /merge handler in server.js: merge every loadable
file in order (skipping load failures), save the merged document and
respond with success; nothing in the handler checks whether any page was
actually collected. -/
def serverMerge {α : Type} (files : List (Option (List α))) (defaultPage : α) :
    MergeResponse α :=
  .success (savePdf (serverMergeLoop files) defaultPage)

/-- True when the merge endpoint responded with an error. -/
def serverMergeFails {α : Type} (files : List (Option (List α))) (defaultPage : α) : Bool :=
  match serverMerge files defaultPage with
  | .error _ => true
  | .success _ => false

/-- Page count of the artifact committed by the merge endpoint. -/
def serverMergePageCount {α : Type} (files : List (Option (List α))) (defaultPage : α) : Nat :=
  match serverMerge files defaultPage with
  | .success pages => pages.length
  | .error _ => 0

/-- Model of the load-and-copy loop of mergePdfs in utils/pdfOperations.js.
Unlike the server.js handler there is no per-file catch: the first file
whose load throws aborts the whole function, which rethrows a PDF-merge
failure. -/
def mergePdfsLoop {α : Type} : List (Option (List α)) → Except String (List α)
  | [] => .ok []
  | some pages :: rest => (mergePdfsLoop rest).map (fun tail => pages ++ tail)
  | none :: _rest => .error ("PDF merge failed: failed to load document")

/-- Model of mergePdfs of utils/pdfOperations.js: concatenate the pages of
every input in order — any load failure aborts with an error — then save
the merged document. -/
def mergePdfs {α : Type} (files : List (Option (List α))) (defaultPage : α) :
    Except String (List α) :=
  (mergePdfsLoop files).map (fun pages => savePdf pages defaultPage)

/-- Model of splitPdf of utils/pdfOperations.js: one single-page document
per source page, in page order, each saved on its own. -/
def splitPdf {α : Type} (doc : List α) (defaultPage : α) : List (List α) :=
  doc.map (fun page => savePdf [page] defaultPage)

/-- True when an Except value is a success. -/
def exceptIsOk {ε β : Type} : Except ε β → Bool
  | .ok _ => true
  | .error _ => false

theorem serverMergeLoop_eq {α : Type} (files : List (Option (List α))) :
    serverMergeLoop files = (files.filterMap id).flatten := by
  induction files with
  | nil => rfl
  | cons f rest ih =>
    cases f with
    | none => simpa [serverMergeLoop] using ih
    | some pages => simp [serverMergeLoop, ih]

theorem exceptIsOk_map {ε β γ : Type} (e : Except ε β) (f : β → γ) :
    exceptIsOk (e.map f) = exceptIsOk e := by
  cases e <;> rfl

theorem mergePdfsLoop_ok_iff {α : Type} (files : List (Option (List α))) :
    exceptIsOk (mergePdfsLoop files) = files.all Option.isSome := by
  induction files with
  | nil => rfl
  | cons f rest ih =>
    cases f with
    | none => simp [mergePdfsLoop, exceptIsOk]
    | some pages => simp [mergePdfsLoop, exceptIsOk_map, ih]

/-- Claim C2, as stated, is FALSE on the code.  When zero documents load
successfully, the POST /merge handler of server.js does not fail with a
NoPagesProcessed error (that identifier appears nowhere in the code base):
the loop skips the corrupt file, the empty merged document is saved —
pdf-lib adds one default blank page — and the endpoint responds success
with a committed 1-page artifact. -/
theorem c2_merge_counterexample :
    serverMergeFails [(none : Option (List Nat))] 0 = false ∧
    serverMergePageCount [(none : Option (List Nat))] 0 = 1 := by
  decide

/-- Claim C2 (amended): in the POST /merge handler of server.js a document
that fails to load is skipped (with a logged warning) and the remaining
documents are merged, so one valid plus one corrupt document succeeds with
the page count of the valid document; however the handler never fails when zero
documents load — it responds success with a single default blank page.
In the mergePdfs utility of utils/pdfOperations.js there is no skipping at
all: the merge succeeds exactly when every document loads, and any corrupt
document aborts the merge with an error. -/
theorem c2_merge_amended {α : Type} :
    (∀ (files : List (Option (List α))) (d : α),
      serverMerge files d = .success (savePdf ((files.filterMap id).flatten) d)) ∧
    (∀ (files : List (Option (List α))) (d : α), serverMergeFails files d = false) ∧
    (∀ (v : List α) (d : α), v ≠ [] → serverMergePageCount [some v, none] d = v.length) ∧
    (∀ (files : List (Option (List α))) (d : α),
      exceptIsOk (mergePdfs files d) = files.all Option.isSome) := by
  refine ⟨?_, ?_, ?_, ?_⟩
  · intro files d
    unfold serverMerge
    rw [serverMergeLoop_eq]
  · intro files d
    rfl
  · intro v d hv
    unfold serverMergePageCount serverMerge
    have hne : v.isEmpty = false := by
      cases v
      · exact absurd rfl hv
      · rfl
    simp [serverMergeLoop, savePdf, hne]
  · intro files d
    unfold mergePdfs
    rw [exceptIsOk_map, mergePdfsLoop_ok_iff]

/-- Witness for c2_merge_amended: merging the 2-page document [7, 8] with
one corrupt document succeeds on the server endpoint with page count 2,
while the mergePdfs utility fails on the same pair. -/
theorem c2_merge_amended_witness :
    serverMergePageCount [some [7, 8], (none : Option (List Nat))] 0 = ([7, 8] : List Nat).length ∧
    exceptIsOk (mergePdfs [some [7, 8], (none : Option (List Nat))] 0) =
      ([some [7, 8], (none : Option (List Nat))].all Option.isSome) ∧
    ([7, 8] : List Nat).length = 2 :=
  ⟨c2_merge_amended.2.2.1 [7, 8] 0 (by decide),
    c2_merge_amended.2.2.2 [some [7, 8], none] 0, by decide⟩

theorem mergePdfsLoop_map_some {α : Type} (l : List (List α)) :
    mergePdfsLoop (l.map some) = .ok l.flatten := by
  induction l with
  | nil => rfl
  | cons pages rest ih => simp [mergePdfsLoop, ih, Except.map]

theorem flatten_map_singleton {α : Type} (l : List α) :
    (l.map (fun page => [page])).flatten = l := by
  induction l with
  | nil => rfl
  | cons p rest ih => simp [ih]

/-- Claim C5: for every document with at least one page, splitting into
single-page documents and merging the outputs back in the original order
reproduces a document with exactly the original page sequence — the same
page count N, in the same order. -/
theorem c5_split_merge_roundtrip {α : Type} (doc : List α) (d : α) (h : doc ≠ []) :
    mergePdfs ((splitPdf doc d).map some) d = .ok doc := by
  have hsplit : splitPdf doc d = doc.map (fun page => [page]) := by
    unfold splitPdf savePdf
    simp
  unfold mergePdfs
  rw [hsplit, mergePdfsLoop_map_some, flatten_map_singleton]
  have hne : doc.isEmpty = false := by
    cases doc
    · exact absurd rfl h
    · rfl
  simp [savePdf, hne, Except.map]

/-- Witness for c5_split_merge_roundtrip on the 3-page document
[10, 20, 30]. -/
theorem c5_split_merge_roundtrip_witness :
    mergePdfs ((splitPdf ([10, 20, 30] : List Nat) 0).map some) 0 = .ok [10, 20, 30] :=
  c5_split_merge_roundtrip ([10, 20, 30] : List Nat) 0 (by decide)

/-! ### Compression quality tiers (utils/pdfOperations.js compressPdf and
the server.js /compress handler) -/

/-- The Ghostscript -dPDFSETTINGS presets used by the code. -/
inductive GsPreset where
  | screen
  | ebook
  | printer
  | prepress
  deriving DecidableEq

/-- Relative expected output size of a preset, as documented by
Ghostscript and by the comments in the code itself (screen gives the
smallest file, prepress keeps everything): a larger rank means a larger,
higher-fidelity output. -/
def presetSizeRank : GsPreset → Nat
  | .screen => 0
  | .ebook => 1
  | .printer => 2
  | .prepress => 3

/-- Tier selected by compressPdf in utils/pdfOperations.js: preset plus
the color-image downsampling resolution the command passes (none means no
downsampling flags, keeping the original resolution). -/
structure CompressTier where
  preset : GsPreset
  colorRes : Option Nat
  deriving DecidableEq

/-- Quality-to-tier mapping of compressPdf (utils/pdfOperations.js):
per its comments, a higher quality value means more compression and a
smaller file. -/
def compressTier (quality : Int) : CompressTier :=
  if quality ≥ 80 then ⟨.screen, some 72⟩
  else if quality ≥ 50 then ⟨.ebook, some 150⟩
  else if quality ≥ 30 then ⟨.printer, some 300⟩
  else ⟨.prepress, none⟩

/-- Downsampling rank of a compressPdf tier: the effective image
resolution kept, with the no-downsampling tier above every capped one. -/
def resRank (r : Option Nat) : Nat :=
  match r with
  | some v => v
  | none => 100000

/-- Tier selected by the POST /compress handler in server.js: preset,
color-image resolution and JPEG encoding quality of the flags it passes.
Per its comments, a LOWER quality value means higher compression there. -/
structure ServerTier where
  preset : GsPreset
  colorRes : Nat
  jpegQ : Nat
  deriving DecidableEq

/-- Quality-to-tier mapping of the POST /compress handler in server.js. -/
def serverCompressTier (quality : Int) : ServerTier :=
  if quality ≥ 90 then ⟨.printer, 200, 90⟩
  else if quality ≥ 75 then ⟨.printer, 150, 85⟩
  else if quality ≥ 50 then ⟨.ebook, 150, 80⟩
  else if quality ≥ 25 then ⟨.printer, 150, 75⟩
  else ⟨.screen, 72, 60⟩

/-- Claim C4, as stated, is FALSE on the code.  The claim requires that a
higher quality scalar always selects a tier producing smaller output, and
the /compress handler in server.js does the opposite: quality 90 selects
/printer with 200 dpi images at JPEG quality 90, strictly larger in every
size-relevant parameter than the /screen, 72 dpi, JPEG-quality-60 tier
selected by quality 10 — so for q1 = 10 < q2 = 90 the q2 artifact is the
larger one, not the smaller. -/
theorem c4_compress_monotonic_counterexample :
    serverCompressTier 90 = ⟨.printer, 200, 90⟩ ∧
    serverCompressTier 10 = ⟨.screen, 72, 60⟩ ∧
    presetSizeRank (serverCompressTier 90).preset > presetSizeRank (serverCompressTier 10).preset ∧
    (serverCompressTier 90).colorRes > (serverCompressTier 10).colorRes ∧
    (serverCompressTier 90).jpegQ > (serverCompressTier 10).jpegQ := by
  decide

/-- Claim C4 (amended): the quality-to-tier mapping of the compressPdf
utility is monotonic in the claimed direction — a higher quality scalar
selects an equally or more compressive tier (preset size rank and
downsampling resolution both non-increasing), so the produced artifact is
smaller or equal.  The /compress handler in server.js uses the opposite
convention: its tier parameters (image resolution and JPEG quality) are
non-decreasing in the quality scalar, so there a higher scalar yields a
larger or equal, higher-fidelity artifact. -/
theorem c4_compress_monotonic_amended (q1 q2 : Int) (h : q1 ≤ q2) :
    (presetSizeRank (compressTier q2).preset ≤ presetSizeRank (compressTier q1).preset ∧
      resRank (compressTier q2).colorRes ≤ resRank (compressTier q1).colorRes) ∧
    ((serverCompressTier q1).colorRes ≤ (serverCompressTier q2).colorRes ∧
      (serverCompressTier q1).jpegQ ≤ (serverCompressTier q2).jpegQ) := by
  unfold compressTier serverCompressTier
  refine ⟨?_, ?_⟩ <;>
    split_ifs <;>
      simp_all [presetSizeRank, resRank] <;> omega

/-- Witness for c4_compress_monotonic_amended at q1 = 10 and q2 = 90. -/
theorem c4_compress_monotonic_amended_witness :
    (presetSizeRank (compressTier 90).preset ≤ presetSizeRank (compressTier 10).preset ∧
      resRank (compressTier 90).colorRes ≤ resRank (compressTier 10).colorRes) ∧
    ((serverCompressTier 10).colorRes ≤ (serverCompressTier 90).colorRes ∧
      (serverCompressTier 10).jpegQ ≤ (serverCompressTier 90).jpegQ) :=
  c4_compress_monotonic_amended 10 90 (by decide)

/-! ### Quality parameter parsing and clamping (routes/compress.js and
server.js) -/

/-- Model of the expression parseInt(req.body.quality) or-else 50 used by
both compress handlers: the parse result is given as an optional integer
(none models NaN, from a missing or unparseable field); since 0 is falsy
in JavaScript, a parsed 0 also falls back to the default 50. -/
def jsQualityOr50 (parsed : Option Int) : Int :=
  match parsed with
  | none => 50
  | some q => if q = 0 then 50 else q

/-- Model of the quality handling of the POST /compress route in
routes/compress.js: the defaulted value is clamped with
Math.max(1, Math.min(100, quality)). -/
def part13Quality (parsed : Option Int) : Int :=
  max 1 (min 100 (jsQualityOr50 parsed))

/-- Claim C9, as stated, is FALSE on the code.  The claim says any
supplied value below 1 behaves as 1; but a supplied quality of 0 is falsy
in JavaScript, so it is replaced by the default 50 before the clamp ever
runs — and 50 selects a genuinely different compression tier than 1
(/ebook with downsampling instead of /prepress without). -/
theorem c9_quality_clamp_counterexample :
    part13Quality (some 0) = 50 ∧
    (50 : Int) ≠ 1 ∧
    compressTier (part13Quality (some 0)) ≠ compressTier 1 := by
  decide

/-- Claim C9 (amended): the quality parameter is effectively clamped into
1–100 before selecting compression settings — the routes/compress.js
handler clamps literally, and although the server.js /compress handler
never clamps, its tier table maps every out-of-range value to the same
tier as the clamped value — and a missing or unparseable value defaults
to 50; except that a supplied value parsing to 0 is indistinguishable
from a missing one and also defaults to 50 rather than behaving as 1. -/
theorem c9_quality_clamp_amended (q : Int) (h : q ≠ 0) :
    part13Quality (some q) = max 1 (min 100 q) ∧
    part13Quality none = 50 ∧
    part13Quality (some 0) = 50 ∧
    serverCompressTier (jsQualityOr50 (some q)) =
      serverCompressTier (max 1 (min 100 q)) ∧
    serverCompressTier (jsQualityOr50 none) = serverCompressTier 50 := by
  have hq : jsQualityOr50 (some q) = q := by
    simp [jsQualityOr50, h]
  refine ⟨?_, by decide, by decide, ?_, by decide⟩
  · unfold part13Quality
    rw [hq]
  · rw [hq]
    unfold serverCompressTier
    split_ifs <;> first | rfl | omega

/-- Witness for c9_quality_clamp_amended at a supplied quality of 150. -/
theorem c9_quality_clamp_amended_witness :
    part13Quality (some 150) = max 1 (min 100 150) ∧
    part13Quality none = 50 ∧
    part13Quality (some 0) = 50 ∧
    serverCompressTier (jsQualityOr50 (some 150)) =
      serverCompressTier (max 1 (min 100 150)) ∧
    serverCompressTier (jsQualityOr50 none) = serverCompressTier 50 :=
  c9_quality_clamp_amended 150 (by decide)

/-! ### Source-type resolution (routes/convert.js POST /convert) -/

/-- Model of the source-type resolution of the POST /convert handler.
The fromType form field is an optional string (none models an absent
field; the empty string is falsy in JavaScript exactly like undefined).
The saved-upload extension always equals the original-filename extension
by construction of the multer storage (uuid plus extname(originalname)),
but both inputs are kept to mirror the code. -/
def resolveFromType (fromType : Option String) (originalExt savedExt : String) : String :=
  let fileExtension := if originalExt = "" then savedExt else originalExt
  let d0 :=
    match fromType with
    | none => fileExtension
    | some f => if f = "" ∨ f = "unknown" then fileExtension else f
  let d1 := if d0 = "jpeg" then "jpg" else d0
  if fileExtension = "jpeg" then "jpg" else d1

/-- The resolution rule exactly as claim C8 states it (for comparison
with the implementation): prefer the caller-supplied hint when present
and not unknown, otherwise the original-filename extension, with the
alias jpeg normalized to jpg before lookup. -/
def specResolveFromType (fromType : Option String) (originalExt : String) : String :=
  let hinted :=
    match fromType with
    | none => originalExt
    | some f => if f = "" ∨ f = "unknown" then originalExt else f
  if hinted = "jpeg" then "jpg" else hinted

/-- Claim C8, as stated, is FALSE on the code.  The handler contains a
second normalization step keyed on the file extension alone: whenever the
extension of the uploaded file is jpeg, the resolved type is forced to jpg even
though a different explicit hint was supplied.  With fromType png and an
uploaded file named with extension jpeg, the claim resolves to png but the
code resolves to jpg. -/
theorem c8_fromtype_counterexample :
    resolveFromType (some ("png")) ("jpeg") ("jpeg") = "jpg" ∧
    specResolveFromType (some ("png")) ("jpeg") = "png" ∧
    ("jpg" : String) ≠ "png" := by
  decide

/-- Claim C8 (amended): the source type is resolved as the claim states —
caller hint when present and not unknown, else the uploaded filename
extension, with jpeg normalized to jpg — except that whenever the
extension of the uploaded file is jpeg, the resolved type is jpg regardless of
the hint. -/
theorem c8_fromtype_amended (fromType : Option String) (ext : String) :
    resolveFromType fromType ext ext =
      (if ext = "jpeg" then "jpg" else specResolveFromType fromType ext) := by
  cases fromType with
  | none =>
    simp only [resolveFromType, specResolveFromType]
    split_ifs <;> simp_all
  | some f =>
    simp only [resolveFromType, specResolveFromType]
    split_ifs <;> simp_all

/-! ### Watermark page range (routes/watermark.js) -/

/-- Model of the JavaScript String.prototype.split with a one-character
separator, over the character list of the string: splitting never drops
empty fragments, so splitting the empty string yields one empty fragment
exactly as in JavaScript. -/
def splitOnChar (sep : Char) : List Char → List (List Char)
  | [] => [[]]
  | c :: rest =>
    match splitOnChar sep rest with
    | [] => [[c]]
    | t :: ts => if c = sep then [] :: t :: ts else (c :: t) :: ts

/-- Model of String.prototype.trim over the character list: leading and
trailing whitespace removed. -/
def trimChars (l : List Char) : List Char :=
  ((l.dropWhile Char.isWhitespace).reverse.dropWhile Char.isWhitespace).reverse

/-- Model of JavaScript parseInt (radix 10) on a form-field token: after
skipping leading whitespace, an optional sign followed by a leading run
of decimal digits; no leading digit means NaN, modelled as none.  (The
exotic hexadecimal 0x form accepted by parseInt does not occur among
page-range tokens and is outside the modelled inputs.) -/
def jsParseIntChars (l : List Char) : Option Int :=
  match trimChars l with
  | [] => none
  | c :: rest =>
    let sign : Int := if c = ('-') then -1 else 1
    let body := if c = ('-') ∨ c = ('+') then rest else c :: rest
    let digits := body.takeWhile Char.isDigit
    if digits = [] then none
    else some (sign * (digits.foldl (fun acc ch => 10 * acc + (ch.toNat - 48)) 0 : Nat))

/-- Model of the page-range parsing of the POST /watermark handler,
producing the list of 0-based page indices the drawing loop will visit
(none models a NaN entry from an unparseable token): the literal all
selects every page; a string containing a dash is split into start and
end, each decremented, and expanded with Array.from (whose length
argument clamps NaN and negative lengths to zero); anything else is
treated as a comma list whose entries are parsed, trimmed and
decremented. -/
def parsePageRange (pageRange : String) (numPages : Nat) : List (Option Int) :=
  if pageRange = "all" then
    (List.range numPages).map (fun i => some (i : Int))
  else if pageRange.data.contains ('-') then
    match ((splitOnChar ('-') pageRange.data).get? 0).bind jsParseIntChars,
        ((splitOnChar ('-') pageRange.data).get? 1).bind jsParseIntChars with
    | some a, some b =>
      if (b - 1) - (a - 1) + 1 ≤ 0 then []
      else (List.range ((b - 1) - (a - 1) + 1).toNat).map (fun i => some ((a - 1) + i))
    | _, _ => []
  else
    (splitOnChar (',') pageRange.data).map
      (fun tok => (jsParseIntChars (trimChars tok)).map (fun v => v - 1))

/-- Model of the drawing loop of the POST /watermark handler: for each
parsed index in order, the watermark text is drawn exactly when the index
satisfies the guard 0 ≤ index < pageCount; every other entry — including
NaN and out-of-range entries — is skipped silently, and the loop never
throws.  The result lists the 0-based indices drawn on, in drawing
order. -/
def drawEvents (parsed : List (Option Int)) (numPages : Nat) : List Nat :=
  match parsed with
  | [] => []
  | none :: rest => drawEvents rest numPages
  | some i :: rest =>
    if 0 ≤ i ∧ i < (numPages : Int) then i.toNat :: drawEvents rest numPages
    else drawEvents rest numPages

/-- The 0-based indices of the pages that receive the watermark text for
a given raw pageRange string and page count. -/
def wmMarked (pageRange : String) (numPages : Nat) : List Nat :=
  drawEvents (parsePageRange pageRange numPages) numPages

theorem drawEvents_mem (parsed : List (Option Int)) (n p : Nat)
    (hp : 1 ≤ p) (hn : p ≤ n) :
    (p - 1) ∈ drawEvents parsed n ↔ some ((p : Int) - 1) ∈ parsed := by
  induction parsed with
  | nil => simp [drawEvents]
  | cons o rest ih =>
    cases o with
    | none =>
      simp only [drawEvents, List.mem_cons]
      rw [ih]
      simp
    | some i =>
      by_cases hin : 0 ≤ i ∧ i < (n : Int)
      · simp only [drawEvents, if_pos hin, List.mem_cons]
        rw [ih]
        constructor
        · rintro (hhd | htl)
          · left
            congr 1
            omega
          · right
            exact htl
        · rintro (hhd | htl)
          · left
            have : i = (p : Int) - 1 := by
              injection hhd with hv
              omega
            omega
          · right
            exact htl
      · simp only [drawEvents, if_neg hin]
        rw [ih]
        have hne : (some i : Option Int) ≠ some ((p : Int) - 1) := by
          intro hcontra
          injection hcontra with hv
          omega
        constructor
        · intro htl
          exact List.mem_cons_of_mem _ htl
        · intro hmem
          rcases List.mem_cons.mp hmem with hhd | htl
          · exact absurd hhd.symm hne
          · exact htl

theorem drawEvents_lt (parsed : List (Option Int)) (n : Nat) :
    ∀ j ∈ drawEvents parsed n, j < n := by
  induction parsed with
  | nil => simp [drawEvents]
  | cons o rest ih =>
    cases o with
    | none => simpa [drawEvents] using ih
    | some i =>
      by_cases hin : 0 ≤ i ∧ i < (n : Int)
      · simp only [drawEvents, if_pos hin]
        intro j hj
        rcases List.mem_cons.mp hj with hhd | htl
        · omega
        · exact ih j htl
      · simpa [drawEvents, if_neg hin] using ih

/-- Claim C7: for every watermark request, exactly the pages whose 1-based
index lies in the resolved pageRange and within [1, pageCount] receive
the watermark text: a page p in [1, pageCount] is drawn on exactly when
its 0-based index appears among the parsed range entries, and no drawing
ever targets a page outside the document — out-of-range entries are
silently skipped by the loop guard rather than raising an error (the
drawing loop is total). -/
theorem c7_watermark_page_range (pageRange : String) (numPages p : Nat)
    (hp : 1 ≤ p) (hn : p ≤ numPages) :
    ((p - 1) ∈ wmMarked pageRange numPages ↔
      some ((p : Int) - 1) ∈ parsePageRange pageRange numPages) ∧
    (∀ j ∈ wmMarked pageRange numPages, j < numPages) := by
  exact ⟨drawEvents_mem _ numPages p hp hn, drawEvents_lt _ numPages⟩

/-- Witness for c7_watermark_page_range: pageRange 1,3 on a 4-page
document marks exactly pages 1 and 3 (0-based indices 0 and 2); pages 2
and 4 receive nothing. -/
theorem c7_watermark_page_range_witness :
    ((3 - 1) ∈ wmMarked ("1,3") 4 ↔
      some ((3 : Int) - 1) ∈ parsePageRange ("1,3") 4) ∧
    wmMarked ("1,3") 4 = [0, 2] :=
  ⟨(c7_watermark_page_range ("1,3") 4 3 (by decide) (by decide)).1, by decide⟩

/-! ### Watermark opacity parameter (routes/watermark.js) -/

/-- Model of the watermark opacity parameter handling, the expression
parseFloat(req.body.opacity) or-else 0.5: the parse result is an optional
rational (none models NaN from a missing or unparseable field); since 0
is falsy in JavaScript, a parsed 0 is also replaced by the default 0.5. -/
def effectiveOpacity (parsed : Option ℚ) : ℚ :=
  match parsed with
  | none => 1 / 2
  | some v => if v = 0 then 1 / 2 else v

/-- Claim C10: an explicitly supplied opacity of 0 — or any value parsing
to 0 or NaN — is silently replaced by the default 0.5, so a fully
transparent watermark (opacity exactly 0) can never be requested through
the public interface. -/
theorem c10_opacity_zero_default :
    effectiveOpacity (some 0) = 1 / 2 ∧
    effectiveOpacity none = 1 / 2 ∧
    ∀ parsed : Option ℚ, effectiveOpacity parsed ≠ 0 := by
  refine ⟨by norm_num [effectiveOpacity], rfl, ?_⟩
  intro parsed
  cases parsed with
  | none =>
    simp only [effectiveOpacity]
    norm_num
  | some v =>
    by_cases hv : v = 0
    · simp only [effectiveOpacity, hv, if_pos rfl]
      norm_num
    · simpa only [effectiveOpacity, if_neg hv] using hv

/-! ### OCR request pipeline and temp-file cleanup (routes/ocr.js) -/

/-- Filesystem paths a single OCR request can create: the uploaded input
in the upload scratch directory, the per-request page-image directory
created under the output scratch directory, the page images written into
it by pdftoppm, and the committed extracted-text result. -/
inductive OcrPath where
  | inputFile
  | imageDir
  | pageImage (k : Nat)
  | textFile
  deriving DecidableEq

/-- Environment of one OCR request, describing the upload and the
behaviour of the external tools: whether the upload is a PDF, whether the
pdftoppm subprocess exits successfully, how many page images it produces
when it does, at which recognition call (0-based) Tesseract throws if
any, and whether the caller asked for a downloadable text file. -/
structure OcrEnv where
  pdfUpload : Bool
  pdftoppmOk : Bool
  producedPages : Nat
  recognizeFailAt : Option Nat
  extractTextFlag : Bool
  deriving DecidableEq

/-- Model of the catch block of the POST /ocr handler: on any thrown
error it removes only the uploaded input file — nothing else — before
forwarding the error. -/
def ocrCatchCleanup (created : List OcrPath) : List OcrPath :=
  created.filter (fun p => p ≠ .inputFile)

/-- Whether an OcrPath is one of the page images inside the temp image
directory. -/
def isPageImage : OcrPath → Bool
  | .pageImage _ => true
  | _ => false

/-- Model of the success tail of the PDF branch of the POST /ocr handler:
remove the temp image directory with its page images, remove the input,
then write the committed text file when extractText was requested.  The
first component is the response (page count on success), the second the
files existing after the request. -/
def ocrFinish (env : OcrEnv) (created : List OcrPath) : Except String Nat × List OcrPath :=
  let afterImages := created.filter (fun p => p ≠ .imageDir ∧ isPageImage p = false)
  let afterInput := afterImages.filter (fun p => p ≠ .inputFile)
  if env.extractTextFlag then (.ok env.producedPages, afterInput ++ [.textFile])
  else (.ok env.producedPages, afterInput)

/-- Model of the POST /ocr handler of routes/ocr.js.  PDF branch: create
the per-request image directory, run pdftoppm (throwing on failure), run
Tesseract on each page image in order (throwing where the environment
says it fails), then clean up and respond.  Image branch: run Tesseract
once on the input.  Every throw lands in the catch block, which removes
only the uploaded input.  Returns the response and the list of files that
remain on disk after the request. -/
def ocrHandler (env : OcrEnv) : Except String Nat × List OcrPath :=
  let fs0 : List OcrPath := [.inputFile]
  if env.pdfUpload then
    let fs1 := fs0 ++ [.imageDir]
    if env.pdftoppmOk = false then
      (.error ("PDF to image conversion failed. Ensure poppler-utils is installed."),
        ocrCatchCleanup fs1)
    else
      let fs2 := fs1 ++ (List.range env.producedPages).map OcrPath.pageImage
      match env.recognizeFailAt with
      | some k =>
        if k < env.producedPages then
          (.error ("Tesseract recognition failed"), ocrCatchCleanup fs2)
        else ocrFinish env fs2
      | none => ocrFinish env fs2
  else
    match env.recognizeFailAt with
    | some 0 => (.error ("Tesseract recognition failed"), ocrCatchCleanup fs0)
    | _ =>
      let fs1 := fs0.filter (fun p => p ≠ .inputFile)
      if env.extractTextFlag then (.ok 1, fs1 ++ [.textFile]) else (.ok 1, fs1)

/-- The scratch files left behind by a request: everything that still
exists afterwards except the committed text result. -/
def ocrScratchLeftover (env : OcrEnv) : List OcrPath :=
  (ocrHandler env).2.filter (fun p => p ≠ .textFile)

/-- Claim C1 is the stated cleanup guarantee and the CODE violates it:
the catch block of the POST /ocr handler removes only the uploaded input,
so a mid-pipeline failure leaves the per-request temp image directory in
the output scratch directory.  When pdftoppm is missing or fails, the
empty ocr_uuid directory remains; when Tesseract throws on some page, the
directory remains together with every page image pdftoppm wrote.  Both
runs end in an error response with a nonempty scratch leftover, where the
claim requires zero leftover files. -/
theorem c1_ocr_cleanup_code_bug :
    (ocrHandler ⟨true, false, 0, none, false⟩).1 =
      .error ("PDF to image conversion failed. Ensure poppler-utils is installed.") ∧
    ocrScratchLeftover ⟨true, false, 0, none, false⟩ = [.imageDir] ∧
    (ocrHandler ⟨true, true, 2, some 1, true⟩).1 =
      .error ("Tesseract recognition failed") ∧
    ocrScratchLeftover ⟨true, true, 2, some 1, true⟩ =
      [.imageDir, .pageImage 0, .pageImage 1] ∧
    ([OcrPath.imageDir] : List OcrPath) ≠ [] :=
  ⟨rfl, by decide, rfl, by decide, by decide⟩

end DocConv
